import Mathlib

/-!
Shallow embedding of the twik evaluator (repository cmars/twik).

The repository provides `globals.go`: the built-in functions (`+`, `-`, `*`,
`/`, `==`, `!=`, `error`) receiving already-evaluated arguments, and the
special forms (`and`, `or`, `if`, `var`, `set`, `do`, `func`) receiving the
current scope and unevaluated AST nodes.  The scope chain (`Scope.Create`,
`Scope.Set`, `Scope.Get`, `Scope.Branch`, `Scope.Eval`) lives in a file not
present under `src/`; those operations are modelled from the specification
(sections 4.1, 4.2 and 6 of spec.md) and are marked as such below.

Go-level representation details that the code observably depends on are made
explicit:
  * `*big.Rat` values are pointers; `eqFn` compares interface values, which
    for two `*big.Rat` operands is pointer identity.  A rational value
    therefore carries an allocation identifier (`Value.rat id q`).
  * `big.Rat.Quo` panics when the divisor is zero; calling a `big.Rat`
    method on a nil receiver panics.  A Go panic is not an error returned
    through the normal `(value, err)` path; it is modelled by the distinct
    error constructor `Error.panicErr`.
  * the closure built by `funcFn` captures the Go variable `scope` of the
    enclosing `funcFn` call and reassigns it (`scope = scope.Branch()`) on
    every invocation; that mutable captured variable is modelled by a cell
    in the state (`State.cells`), read and written exactly where the Go
    code reads and writes `scope`.
-/

namespace Twik

/-- A runtime outcome that aborts evaluation: `msg` is an ordinary Go error
returned through the `(value, err)` path; `panicErr` is a Go panic (a crash,
not a returned error); `fuel` is an artifact of the embedding marking fuel
exhaustion and corresponds to no program behaviour. -/
inductive Error where
  | msg : String → Error
  | panicErr : String → Error
  | fuel : Error

/-- Message carried by an error, as `err.Error()` in Go. -/
def Error.text : Error → String
  | .msg s => s
  | .panicErr s => s
  | .fuel => "out of fuel"

/-- A parsed literal.  Modelled from the spec: a Literal node carries a Value
and evaluation returns it unchanged, so a rational literal denotes the same
`*big.Rat` pointer on every evaluation; the pointer identifier is fixed at
parse time.  Programs below use literal identifiers smaller than 1000, and
runtime allocations start at 1000, so the two never collide. -/
inductive Lit where
  | rat : Nat → ℚ → Lit
  | str : String → Lit

/-- An AST node: symbol, list, or literal (spec section 3). -/
inductive Node where
  | sym : String → Node
  | list : List Node → Node
  | lit : Lit → Node

/-- Identifier of a built-in function from globals.go. -/
inductive BuiltinId where
  | errf | eq | ne | plus | minus | mul | div

/-- A closure built by `funcFn` (globals.go lines 228-288): optional name
(empty string when anonymous), parameter names, body nodes, and the index of
the state cell holding the Go variable `scope` captured by the closure. -/
structure Closure where
  name : String
  params : List String
  body : List Node
  cell : Nat

/-- A runtime value: Go `bool`, `*big.Rat` (pointer identifier and exact
value), `string`, `nil`, or a callable.  Special forms are not values: the
evaluator recognises them by leading symbol (spec section 4.2). -/
inductive Value where
  | bool : Bool → Value
  | rat : Nat → ℚ → Value
  | str : String → Value
  | nil : Value
  | builtin : BuiltinId → Value
  | closure : Closure → Value

/-- Modelled from the spec: one binding table of the scope chain, with an
optional parent (spec section 3, Environment). -/
structure Frame where
  bindings : List (String × Value)
  parent : Option Nat

/-- The evaluator state: the arena of scope frames, the cells holding each
closure's captured `scope` variable, and the next fresh `*big.Rat`
allocation identifier. -/
structure State where
  frames : List Frame
  cells : List Nat
  next : Nat

/-- Frame at index `i` (indices are always in range in runs below). -/
def State.frame (st : State) (i : Nat) : Frame :=
  (st.frames[i]?).getD ⟨[], none⟩

/-- Allocate a fresh `*big.Rat` holding `q`, as `big.NewRat` / `newRatZero`
do in globals.go: a new pointer distinct from all earlier ones. -/
def State.allocRat (st : State) (q : ℚ) : State × Value :=
  ({ st with next := st.next + 1 }, .rat st.next q)

/-- Modelled from the spec: `Create` binds a name in this table only and
fails when the name is already present in this same table (spec 4.1). -/
def Frame.createB (fr : Frame) (n : String) (v : Value) : Except Error Frame :=
  if fr.bindings.any (fun b => b.1 == n) then
    .error (.msg ("twik: symbol already defined in scope: " ++ n))
  else
    .ok { fr with bindings := fr.bindings ++ [(n, v)] }

/-- Modelled from the spec: `Scope.Create` on the frame at index `sc`. -/
def State.create (st : State) (sc : Nat) (n : String) (v : Value) :
    Except Error State :=
  match (st.frame sc).createB n v with
  | .ok fr => .ok { st with frames := st.frames.set sc fr }
  | .error e => .error e

/-- Modelled from the spec: `Scope.Get` walks the chain from the current
table outward to the root and returns the first match (spec 4.1).  The walk
is bounded by a chain-length fuel; parent indices in any reachable state
strictly decrease, so `st.frames.length` steps always suffice. -/
def lookupChain (st : State) : Nat → Nat → String → Option Value
  | 0, _, _ => none
  | fu + 1, sc, n =>
    let fr := st.frame sc
    match fr.bindings.find? (fun b => b.1 == n) with
    | some b => some b.2
    | none =>
      match fr.parent with
      | some p => lookupChain st fu p n
      | none => none

/-- Modelled from the spec: `Scope.Set` overwrites the binding in the
nearest table of the chain that has the name, failing (`none`) when no table
does (spec 4.1). -/
def setChain (st : State) : Nat → Nat → String → Value → Option State
  | 0, _, _, _ => none
  | fu + 1, sc, n, v =>
    let fr := st.frame sc
    if fr.bindings.any (fun b => b.1 == n) then
      let fr2 : Frame :=
        { fr with bindings := fr.bindings.map (fun b => if b.1 == n then (n, v) else b) }
      some { st with frames := st.frames.set sc fr2 }
    else
      match fr.parent with
      | some p => setChain st fu p n v
      | none => none

/-- Modelled from the spec: `Scope.Branch` appends a fresh empty table whose
parent is the given one, returning the new state and the new frame's index
(spec 4.1). -/
def State.branch (st : State) (sc : Nat) : State × Nat :=
  ({ st with frames := st.frames ++ [⟨[], some sc⟩] }, st.frames.length)

/-- Allocate a new captured-scope cell initialised to `sc`, modelling the Go
variable `scope` of one `funcFn` activation. -/
def State.newCell (st : State) (sc : Nat) : State × Nat :=
  ({ st with cells := st.cells ++ [sc] }, st.cells.length)

/-- Current value of a captured-scope cell. -/
def State.cellGet (st : State) (i : Nat) : Nat :=
  (st.cells[i]?).getD 0

/-- Overwrite a captured-scope cell, modelling `scope = scope.Branch()`. -/
def State.cellSet (st : State) (i : Nat) (sc : Nat) : State :=
  { st with cells := st.cells.set i sc }

/-- Approximation of Go's `%#v` formatting used in type-error messages of
globals.go.  No claim depends on this text. -/
def goRepr : Value → String
  | .bool true => "true"
  | .bool false => "false"
  | .rat _ _ => "*big.Rat"
  | .str s => "\"" ++ s ++ "\""
  | .nil => "<nil>"
  | .builtin _ => "builtin function"
  | .closure _ => "closure"

/-- Go interface equality as performed by `args[0] == args[1]` in `eqFn`
(globals.go line 57): equal dynamic types compare their values — for
`*big.Rat` that is pointer identity — different dynamic types compare
unequal, and comparing two values of the same non-comparable (function)
dynamic type panics at run time. -/
def goEqVal : Value → Value → Except Error Bool
  | .bool a, .bool b => .ok (a == b)
  | .rat i _, .rat j _ => .ok (i == j)
  | .str a, .str b => .ok (a == b)
  | .nil, .nil => .ok true
  | .builtin _, .builtin _ =>
    .error (.panicErr "runtime error: comparing uncomparable type")
  | .builtin _, .closure _ =>
    .error (.panicErr "runtime error: comparing uncomparable type")
  | .closure _, .builtin _ =>
    .error (.panicErr "runtime error: comparing uncomparable type")
  | .closure _, .closure _ =>
    .error (.panicErr "runtime error: comparing uncomparable type")
  | _, _ => .ok false

/-- `errorFn` (globals.go lines 43-50). -/
def errorFn (_st : State) (args : List Value) : Except Error (State × Value) :=
  match args with
  | [.str s] => .error (.msg s)
  | _ => .error (.msg "error function takes a single string argument")

/-- `eqFn` (globals.go lines 52-58): exactly two arguments, Go interface
equality. -/
def eqFn (st : State) (args : List Value) : Except Error (State × Value) :=
  match args with
  | [a, b] =>
    match goEqVal a b with
    | .ok r => .ok (st, .bool r)
    | .error e => .error e
  | _ => .error (.msg "== expects two values")

/-- `neFn` (globals.go lines 60-66). -/
def neFn (st : State) (args : List Value) : Except Error (State × Value) :=
  match args with
  | [a, b] =>
    match goEqVal a b with
    | .ok r => .ok (st, .bool (!r))
    | .error e => .error e
  | _ => .error (.msg "!= expects two values")

/-- Accumulating loop of `plusFn` (globals.go lines 68-79): starts from the
rational zero and adds each argument, failing on the first non-rational. -/
def sumRats : List Value → ℚ → Except Error ℚ
  | [], acc => .ok acc
  | .rat _ q :: rest, acc => sumRats rest (acc + q)
  | v :: _, _ => .error (.msg ("cannot sum " ++ goRepr v))

/-- `plusFn` (globals.go lines 68-79): the result is a freshly allocated
`*big.Rat` (`newRatZero`) mutated in place and returned. -/
def plusFn (st : State) (args : List Value) : Except Error (State × Value) :=
  match sumRats args 0 with
  | .ok q => .ok (st.allocRat q)
  | .error e => .error e

/-- Accumulating loop of `mulFn` (globals.go lines 101-112). -/
def prodRats : List Value → ℚ → Except Error ℚ
  | [], acc => .ok acc
  | .rat _ q :: rest, acc => prodRats rest (acc * q)
  | v :: _, _ => .error (.msg ("cannot multiply " ++ goRepr v))

/-- `mulFn` (globals.go lines 101-112). -/
def mulFn (st : State) (args : List Value) : Except Error (State × Value) :=
  match prodRats args 1 with
  | .ok q => .ok (st.allocRat q)
  | .error e => .error e

/-- Loop of `minusFn` (globals.go lines 85-97).  `res` starts as the nil
`*big.Rat` pointer (`none`); it is assigned a fresh copy of the first
argument only when there are at least two arguments (`i == 0 && len(args) >
1`), so with exactly one argument the Go code calls `res.Sub` on a nil
receiver and panics. -/
def minusLoop (total : Nat) : List Value → Option ℚ → Nat → Except Error ℚ
  | [], res, _ => .ok (res.getD 0)
  | .rat _ q :: rest, res, i =>
    if i == 0 && total > 1 then
      minusLoop total rest (some q) (i + 1)
    else
      match res with
      | none =>
        .error (.panicErr "runtime error: invalid memory address or nil pointer dereference")
      | some r => minusLoop total rest (some (r - q)) (i + 1)
  | v :: _, _, _ => .error (.msg ("cannot subtract " ++ goRepr v))

/-- `minusFn` (globals.go lines 81-99). -/
def minusFn (st : State) (args : List Value) : Except Error (State × Value) :=
  if args.length == 0 then
    .error (.msg "function \"-\" takes one or more arguments")
  else
    match minusLoop args.length args none 0 with
    | .ok q => .ok (st.allocRat q)
    | .error e => .error e

/-- Loop of `divFn` (globals.go lines 118-130).  `res.Quo(res, arg)` is
`big.Rat.Quo`, which panics with "division by zero" when the divisor is
zero (checked before the receiver is touched). -/
def divLoop (total : Nat) : List Value → Option ℚ → Nat → Except Error ℚ
  | [], res, _ => .ok (res.getD 0)
  | .rat _ q :: rest, res, i =>
    if i == 0 && total > 1 then
      divLoop total rest (some q) (i + 1)
    else if q == 0 then
      .error (.panicErr "division by zero")
    else
      match res with
      | none =>
        .error (.panicErr "runtime error: invalid memory address or nil pointer dereference")
      | some r => divLoop total rest (some (r / q)) (i + 1)
  | v :: _, _, _ => .error (.msg ("cannot divide with " ++ goRepr v))

/-- `divFn` (globals.go lines 114-132): fewer than two arguments is an
arity error; otherwise fold left with `Quo`. -/
def divFn (st : State) (args : List Value) : Except Error (State × Value) :=
  if args.length < 2 then
    .error (.msg "function \"/\" takes two or more arguments")
  else
    match divLoop args.length args none 0 with
    | .ok q => .ok (st.allocRat q)
    | .error e => .error e

/-- Dispatch an ordinary built-in on already-evaluated arguments. -/
def applyBuiltin (b : BuiltinId) (st : State) (args : List Value) :
    Except Error (State × Value) :=
  match b with
  | .errf => errorFn st args
  | .eq => eqFn st args
  | .ne => neFn st args
  | .plus => plusFn st args
  | .minus => minusFn st args
  | .mul => mulFn st args
  | .div => divFn st args

/-- Arity-error message of a closure (globals.go lines 253-265): the name
info is "anonymous function" or `function %q`, and the tail is pluralised by
the Go `switch` on the parameter count. -/
def arityMsg (name : String) (n : Nat) : String :=
  let nameInfo := if name == "" then "anonymous function"
                  else "function \"" ++ name ++ "\""
  match n with
  | 0 => nameInfo ++ " takes no arguments"
  | 1 => nameInfo ++ " takes one argument"
  | _ => nameInfo ++ " takes " ++ toString n ++ " arguments"

/-- Parameter-binding loop of the closure body (globals.go lines 268-273)
restricted to one frame: `Create` each parameter in the frame; a `Create`
failure is turned into `panic("must not happen: " + err.Error())`. -/
def bindFrame : Frame → List String → List Value → Except Error Frame
  | fr, [], _ => .ok fr
  | fr, p :: ps, a :: rest =>
    match fr.createB p a with
    | .ok fr2 => bindFrame fr2 ps rest
    | .error e => .error (.panicErr ("must not happen: " ++ e.text))
  | fr, _ :: _, [] => .ok fr

/-- Parameter-binding loop of the closure body (globals.go lines 268-273)
acting on the frame at index `f` of the state. -/
def bindParams (f : Nat) (st : State) (ps : List String) (args : List Value) :
    Except Error State :=
  match bindFrame (st.frame f) ps args with
  | .ok fr => .ok { st with frames := st.frames.set f fr }
  | .error e => .error e

/-- Extract the symbol names of a parameter list; `none` when some node is
not a symbol (globals.go lines 243-247). -/
def symNames : List Node → Option (List String)
  | [] => some []
  | .sym n :: rest => (symNames rest).map (n :: ·)
  | _ => none

/-- Shape of the evaluator function threaded through the special-form and
call handlers: state, current scope index, node to evaluate. -/
abbrev EvalFn := State → Nat → Node → Except Error (State × Value)

/-- Modelled from the spec: left-to-right evaluation of the argument nodes
of an ordinary call (spec 4.2). -/
def evalArgs (ev : EvalFn) : State → Nat → List Node → Except Error (State × List Value)
  | st, _, [] => .ok (st, [])
  | st, sc, n :: rest => do
    let (st1, v) ← ev st sc n
    let (st2, vs) ← evalArgs ev st1 sc rest
    .ok (st2, v :: vs)

/-- Body loop of a closure (globals.go lines 274-280): each node is
evaluated in the scope currently held by the captured `scope` variable, and
the last value is returned. -/
def evalBodyCell (ev : EvalFn) : State → Nat → List Node → Except Error (State × Value)
  | st, _, [] => .ok (st, .nil)
  | st, cell, [n] => ev st (st.cellGet cell) n
  | st, cell, n :: rest => do
    let (st1, _) ← ev st (st.cellGet cell) n
    evalBodyCell ev st1 cell rest

/-- The closure body built by `funcFn` (globals.go lines 252-281): check the
argument count against the parameter count with the pluralised arity
message; on match read the captured `scope` variable, branch it, write the
branch back to the captured variable (`scope = scope.Branch()`), `Create`
each parameter (a failure there panics), then evaluate the body nodes in
sequence, each one reading the captured variable anew. -/
def applyClosure (ev : EvalFn) (st : State) (c : Closure) (args : List Value) :
    Except Error (State × Value) :=
  if args.length != c.params.length then
    .error (.msg (arityMsg c.name c.params.length))
  else
    let cur := st.cellGet c.cell
    let (st1, f) := st.branch cur
    let st2 := st1.cellSet c.cell f
    match bindParams f st2 c.params args with
    | .ok st3 => evalBodyCell ev st3 c.cell c.body
    | .error e => .error e

/-- Modelled from the spec: invoking the result of the head evaluation — a
built-in, a closure, or a `NotCallable` error (spec 4.2). -/
def applyValue (ev : EvalFn) (st : State) : Value → List Value → Except Error (State × Value)
  | .builtin b, args => applyBuiltin b st args
  | .closure c, args => applyClosure ev st c args
  | _, _ => .error (.msg "twik: call of non-function value")

/-- Modelled from the spec: the ordinary call path (spec 4.2) — evaluate the
head to a callable, evaluate the arguments left-to-right, invoke. -/
def callEval (ev : EvalFn) (st : State) (sc : Nat) (h : Node) (t : List Node) :
    Except Error (State × Value) := do
  let (st1, f) ← ev st sc h
  let (st2, args) ← evalArgs ev st1 sc t
  applyValue ev st2 f args

/-- `andFn` (globals.go lines 134-148): zero operands give `true`; operands
are evaluated left-to-right, returning `false` at the first result equal to
the Go `false`, and otherwise the last evaluated value. -/
def andFn (ev : EvalFn) : State → Nat → List Node → Except Error (State × Value)
  | st, _, [] => .ok (st, .bool true)
  | st, sc, a :: rest => do
    let (st1, v) ← ev st sc a
    match v with
    | .bool false => .ok (st1, .bool false)
    | _ =>
      match rest with
      | [] => .ok (st1, v)
      | _ => andFn ev st1 sc rest

/-- `orFn` (globals.go lines 150-164): zero operands give `false`; operands
are evaluated left-to-right, returning the first result not equal to the Go
`false`, and otherwise the last evaluated value (which is `false`). -/
def orFn (ev : EvalFn) : State → Nat → List Node → Except Error (State × Value)
  | st, _, [] => .ok (st, .bool false)
  | st, sc, a :: rest => do
    let (st1, v) ← ev st sc a
    match v with
    | .bool false =>
      match rest with
      | [] => .ok (st1, .bool false)
      | _ => orFn ev st1 sc rest
    | _ => .ok (st1, v)

/-- `ifFn` (globals.go lines 166-181): two or three operands; the condition
is evaluated and only the Go `false` selects the else branch (or the value
`false` when absent); any other result selects the then branch. -/
def ifFn (ev : EvalFn) : State → Nat → List Node → Except Error (State × Value)
  | st, sc, [c, t] => do
    let (st1, v) ← ev st sc c
    match v with
    | .bool false => .ok (st1, .bool false)
    | _ => ev st1 sc t
  | st, sc, [c, t, e] => do
    let (st1, v) ← ev st sc c
    match v with
    | .bool false => ev st1 sc e
    | _ => ev st1 sc t
  | _, _, _ => .error (.msg "function \"if\" takes two or three arguments")

/-- `varFn` (globals.go lines 183-200): one or two operands, the first a
symbol; the optional second operand is evaluated for the initial value
(default Go `nil`); the binding is created in the current scope and the
form's own value is Go `nil`. -/
def varFn (ev : EvalFn) : State → Nat → List Node → Except Error (State × Value)
  | st, sc, [.sym n] =>
    match st.create sc n .nil with
    | .ok st1 => .ok (st1, .nil)
    | .error e => .error e
  | st, sc, [.sym n, e] => do
    let (st1, v) ← ev st sc e
    match st1.create sc n v with
    | .ok st2 => .ok (st2, .nil)
    | .error e2 => .error e2
  | _, _, [_] => .error (.msg "var takes a symbol as first argument")
  | _, _, [_, _] => .error (.msg "var takes a symbol as first argument")
  | _, _, _ => .error (.msg "var takes one or two arguments")

/-- `setFn` (globals.go lines 202-215): exactly two operands, the first a
symbol; the second is evaluated and written through the scope chain; the
form's own value is Go `nil`. -/
def setFn (ev : EvalFn) : State → Nat → List Node → Except Error (State × Value)
  | st, sc, [.sym n, e] => do
    let (st1, v) ← ev st sc e
    match setChain st1 st1.frames.length sc n v with
    | some st2 => .ok (st2, .nil)
    | none => .error (.msg ("twik: undefined symbol: " ++ n))
  | _, _, [_, _] => .error (.msg "function \"set\" takes a symbol as first argument")
  | _, _, _ => .error (.msg "function \"set\" takes two arguments")

/-- Sequencing loop of `doFn` (globals.go lines 219-224). -/
def doLoop (ev : EvalFn) : State → Nat → List Node → Except Error (State × Value)
  | st, _, [] => .ok (st, .nil)
  | st, sc, [n] => ev st sc n
  | st, sc, n :: rest => do
    let (st1, _) ← ev st sc n
    doLoop ev st1 sc rest

/-- `doFn` (globals.go lines 217-226): branch a child scope and evaluate the
operands in sequence there, returning the last value (Go `nil` when there
are none). -/
def doFn (ev : EvalFn) (st : State) (sc : Nat) (args : List Node) :
    Except Error (State × Value) :=
  let (st1, f) := st.branch sc
  doLoop ev st1 f args

/-- `funcFn` (globals.go lines 228-288): at least two operands; an optional
leading symbol names the function; the next operand must be a list of
symbols (the parameters); the remaining operands are the non-empty body.
The closure captures the defining activation's `scope` variable (a fresh
cell initialised to the current scope); a named function is `Create`d in
the current scope before the closure is returned. -/
def funcFn (st : State) (sc : Nat) (args : List Node) :
    Except Error (State × Value) :=
  if args.length < 2 then
    .error (.msg "func takes three or more arguments")
  else
    let ni : String × Nat :=
      match args with
      | .sym n :: _ => (n, 1)
      | _ => ("", 0)
    match args[ni.2]? with
    | some (.list paramNodes) =>
      match symNames paramNodes with
      | none => .error (.msg "func's list of parameters must be a list of symbols")
      | some params =>
        let body := args.drop (ni.2 + 1)
        if body.length == 0 then
          .error (.msg "func takes a body sequence")
        else
          let (st1, cellId) := st.newCell sc
          let c : Closure := ⟨ni.1, params, body, cellId⟩
          if ni.1 != "" then
            match st1.create sc ni.1 (.closure c) with
            | .ok st2 => .ok (st2, .closure c)
            | .error e => .error e
          else
            .ok (st1, .closure c)
    | _ => .error (.msg "func takes a list of parameters")

/-- Modelled from the spec: the recursive evaluator of the missing engine
file (spec 4.2).  Literal nodes return their value unchanged; symbol nodes
are looked up along the scope chain; an empty list is an error; a list whose
head is a symbol naming a registered special form dispatches to its handler
with the unevaluated operands; any other list is an ordinary call.  The
recursion is bounded by a fuel counter decremented at each list form;
`Error.fuel` corresponds to no program behaviour. -/
def evalNode : Nat → State → Nat → Node → Except Error (State × Value)
  | 0, _, _, _ => .error .fuel
  | _ + 1, st, _, .lit (.rat i q) => .ok (st, .rat i q)
  | _ + 1, st, _, .lit (.str s) => .ok (st, .str s)
  | _ + 1, st, sc, .sym n =>
    match lookupChain st st.frames.length sc n with
    | some v => .ok (st, v)
    | none => .error (.msg ("twik: undefined symbol: " ++ n))
  | _ + 1, _, _, .list [] => .error (.msg "twik: cannot call empty list")
  | fu + 1, st, sc, .list (h :: t) =>
    match h with
    | .sym n =>
      if n == "and" then andFn (evalNode fu) st sc t
      else if n == "or" then orFn (evalNode fu) st sc t
      else if n == "if" then ifFn (evalNode fu) st sc t
      else if n == "var" then varFn (evalNode fu) st sc t
      else if n == "set" then setFn (evalNode fu) st sc t
      else if n == "do" then doFn (evalNode fu) st sc t
      else if n == "func" then funcFn st sc t
      else callEval (evalNode fu) st sc h t
    | _ => callEval (evalNode fu) st sc h t

/-- Modelled from the spec: the root environment pre-seeded with the
non-special built-ins and constants of `defaultGlobals` (globals.go lines
11-33); the special forms are recognised by name in `evalNode`. -/
def rootFrame : Frame :=
  ⟨[("true", .bool true), ("false", .bool false), ("nil", .nil),
    ("error", .builtin .errf), ("==", .builtin .eq), ("!=", .builtin .ne),
    ("+", .builtin .plus), ("-", .builtin .minus), ("*", .builtin .mul),
    ("/", .builtin .div)], none⟩

/-- Initial state: the root frame only; runtime `*big.Rat` allocations start
at identifier 1000 so that they never collide with the literal identifiers
(all below 1000) used by the concrete programs in this file. -/
def initState : State := ⟨[rootFrame], [], 1000⟩

/-- Modelled from the spec: the host evaluates top-level nodes in sequence
against the root scope (spec 6), the program's value being the last node's
value. -/
def runAux (fuel : Nat) : State → List Node → Except Error (State × Value)
  | st, [] => .ok (st, .nil)
  | st, [n] => evalNode fuel st 0 n
  | st, n :: rest => do
    let (st1, _) ← evalNode fuel st 0 n
    runAux fuel st1 rest

/-- Run a program from the initial state and keep the resulting value. -/
def runProg (fuel : Nat) (prog : List Node) : Except Error Value :=
  match runAux fuel initState prog with
  | .ok (_, v) => .ok v
  | .error e => .error e

/-- The rationals carried by a list of values, or `none` when some value is
not a rational. -/
def ratList : List Value → Option (List ℚ)
  | [] => some []
  | .rat _ q :: rest => (ratList rest).map (q :: ·)
  | _ => none

/-- The program `(func f (b) (if b (var x 1) x))`, `(f true)`, `(f false)`:
the first call creates `x` in its invocation scope; the second call reads
`x`. -/
def c1prog : List Node := [
  .list [.sym "func", .sym "f", .list [.sym "b"],
    .list [.sym "if", .sym "b", .list [.sym "var", .sym "x", .lit (.rat 0 1)], .sym "x"]],
  .list [.sym "f", .sym "true"],
  .list [.sym "f", .sym "false"]]

/-- The program `(/ 1 0)`. -/
def c2prog : List Node := [.list [.sym "/", .lit (.rat 0 1), .lit (.rat 1 0)]]

/-- The program `(- 5)`. -/
def c3prog : List Node := [.list [.sym "-", .lit (.rat 0 5)]]

/-- The program `(== 1 (* (/ 1 1) 1))`, the round-trip property at
`a = b = 1`. -/
def c4prog : List Node := [.list [.sym "==", .lit (.rat 0 1),
  .list [.sym "*", .list [.sym "/", .lit (.rat 1 1), .lit (.rat 2 1)], .lit (.rat 3 1)]]]

/-- C1: the claim says every invocation of a closure branches the captured
defining scope, so no state from one invocation is visible to the next.
The code instead reassigns the captured `scope` variable on every call
(`scope = scope.Branch()` in globals.go line 267), so the second call of
`f` in `c1prog` chains through the first call's scope and reads the `x`
created there, yielding 1 where the claimed semantics would fail with an
undefined-symbol error. -/
theorem c1_second_call_sees_previous_invocation_scope :
    runProg 100 c1prog = .ok (.rat 0 1) := by rfl

/-- C2: the claim says dividing by a zero rational fails with a
DivisionByZero error on the normal error path without crashing.  The code
(globals.go line 125) calls `big.Rat.Quo` with no zero check, and `Quo`
panics — a crash, not a returned error. -/
theorem c2_div_by_zero_panics :
    runProg 50 c2prog = .error (.panicErr "division by zero") := by rfl

/-- C3: the claim says `-` with exactly one rational argument returns its
negation.  In the code (globals.go lines 85-97) the accumulator `res` is
only initialised when there are at least two arguments, so a one-argument
call invokes `res.Sub` on a nil `*big.Rat` and panics with a nil-pointer
dereference. -/
theorem c3_unary_minus_nil_pointer_panic :
    runProg 50 c3prog =
      .error (.panicErr "runtime error: invalid memory address or nil pointer dereference") := by
  rfl

/-- C4: the claim says `a == (a/b)*b` evaluates to true for `b ≠ 0`.  The
code's `eqFn` (globals.go line 57) compares the two `*big.Rat` interface
values by pointer identity, and `(a/b)*b` is a freshly allocated rational,
so the comparison is false even at `a = b = 1` (the code's own
`// TODO: rat compare` marks the missing numeric comparison). -/
theorem c4_eq_compares_rat_pointers_not_values :
    runProg 100 c4prog = .ok (.bool false) := by rfl

/-- C5: the `and` special form returns Bool `true` on zero operands; it
evaluates its operands left-to-right and returns Bool `false` as soon as an
operand evaluates to Bool `false`, the later operand nodes never being
evaluated (the result does not depend on them); when no operand evaluates
to `false` it returns the value of the last operand.  Stated for any
evaluator function `ev`, in particular `evalNode fu`. -/
theorem c5_and_short_circuit :
    (∀ (ev : EvalFn) (st : State) (sc : Nat),
      andFn ev st sc [] = .ok (st, .bool true)) ∧
    (∀ (ev : EvalFn) (st : State) (sc : Nat) (a : Node) (rest : List Node) (st1 : State),
      ev st sc a = .ok (st1, .bool false) →
      andFn ev st sc (a :: rest) = .ok (st1, .bool false)) ∧
    (∀ (ev : EvalFn) (st : State) (sc : Nat) (a : Node) (st1 : State) (v : Value),
      ev st sc a = .ok (st1, v) → v ≠ .bool false →
      andFn ev st sc [a] = .ok (st1, v)) ∧
    (∀ (ev : EvalFn) (st : State) (sc : Nat) (a b : Node) (rest : List Node)
      (st1 : State) (v : Value),
      ev st sc a = .ok (st1, v) → v ≠ .bool false →
      andFn ev st sc (a :: b :: rest) = andFn ev st1 sc (b :: rest)) := by
  refine ⟨fun ev st sc => rfl, ?_, ?_, ?_⟩
  · intro ev st sc a rest st1 h
    cases rest <;> simp [andFn, h, Except.bind, Bind.bind]
  · intro ev st sc a st1 v h hv
    simp only [andFn, h, Except.bind, Bind.bind]
  · intro ev st sc a b rest st1 v h hv
    simp only [andFn, h, Except.bind, Bind.bind]

/-- Witness for C5 on a concrete program: in `(and 1 false boom)` evaluated
in the root scope, the symbol `boom` is unbound, yet the form returns
`false` because the third operand is never evaluated. -/
theorem c5_and_short_circuit_witness :
    andFn (evalNode 20) initState 0 [Node.sym "false", Node.sym "boom"] =
      .ok (initState, .bool false) :=
  c5_and_short_circuit.2.1 (evalNode 20) initState 0 (Node.sym "false")
    [Node.sym "boom"] initState (by rfl)

/-- C6: the `if` special form takes exactly 2 or 3 operands (anything else
is an arity error); it evaluates operand 0 and, exactly when the result is
the Bool `false`, evaluates and returns operand 2 if present or returns
Bool `false`; for every other condition value (nil, numbers, strings, ...)
it evaluates and returns operand 1; the untaken branch never being
evaluated, the result does not depend on it. -/
theorem c6_if_semantics :
    (∀ (ev : EvalFn) (st : State) (sc : Nat) (args : List Node),
      args.length < 2 ∨ args.length > 3 →
      ifFn ev st sc args = .error (.msg "function \"if\" takes two or three arguments")) ∧
    (∀ (ev : EvalFn) (st : State) (sc : Nat) (c t e : Node) (st1 : State),
      ev st sc c = .ok (st1, .bool false) →
      ifFn ev st sc [c, t, e] = ev st1 sc e) ∧
    (∀ (ev : EvalFn) (st : State) (sc : Nat) (c t : Node) (st1 : State),
      ev st sc c = .ok (st1, .bool false) →
      ifFn ev st sc [c, t] = .ok (st1, .bool false)) ∧
    (∀ (ev : EvalFn) (st : State) (sc : Nat) (c t : Node) (st1 : State) (v : Value),
      ev st sc c = .ok (st1, v) → v ≠ .bool false →
      ifFn ev st sc [c, t] = ev st1 sc t) ∧
    (∀ (ev : EvalFn) (st : State) (sc : Nat) (c t e : Node) (st1 : State) (v : Value),
      ev st sc c = .ok (st1, v) → v ≠ .bool false →
      ifFn ev st sc [c, t, e] = ev st1 sc t) := by
  refine ⟨?_, ?_, ?_, ?_, ?_⟩
  · intro ev st sc args h
    rcases args with _ | ⟨a, _ | ⟨b, _ | ⟨c, _ | ⟨d, rest⟩⟩⟩⟩
    · rfl
    · rfl
    · exact absurd h (by simp)
    · exact absurd h (by simp)
    · rfl
  · intro ev st sc c t e st1 h
    simp [ifFn, h, Except.bind, Bind.bind]
  · intro ev st sc c t st1 h
    simp [ifFn, h, Except.bind, Bind.bind]
  · intro ev st sc c t st1 v h hv
    simp only [ifFn, h, Except.bind, Bind.bind]
  · intro ev st sc c t e st1 v h hv
    simp only [ifFn, h, Except.bind, Bind.bind]

/-- Witness for C6 on a concrete program: `(if false boom "a")` in the root
scope evaluates the else operand (the then operand `boom` is unbound and
never evaluated), and `(if 0 "a" "b")` takes the then branch because a
numeric 0 is truthy. -/
theorem c6_if_semantics_witness :
    ifFn (evalNode 20) initState 0 [Node.sym "false", Node.sym "boom", Node.lit (Lit.str "a")] =
      evalNode 20 initState 0 (Node.lit (Lit.str "a")) ∧
    ifFn (evalNode 20) initState 0
      [Node.lit (Lit.rat 0 0), Node.lit (Lit.str "a"), Node.lit (Lit.str "b")] =
      evalNode 20 initState 0 (Node.lit (Lit.str "a")) :=
  ⟨c6_if_semantics.2.1 (evalNode 20) initState 0 (Node.sym "false") (Node.sym "boom")
      (Node.lit (Lit.str "a")) initState (by rfl),
   c6_if_semantics.2.2.2.2 (evalNode 20) initState 0 (Node.lit (Lit.rat 0 0))
      (Node.lit (Lit.str "a")) (Node.lit (Lit.str "b")) initState (.rat 0 0)
      (by rfl) (by intro h; cases h)⟩

/-- C7: invoking a closure with an argument count different from its
parameter count fails with an arity error whose message names the function
by its declared name (quoted, as Go `%q`) when it was named and as
"anonymous function" otherwise, pluralised by the parameter count: "takes
no arguments" for 0, "takes one argument" for 1, and "takes N arguments"
for N greater than one. -/
theorem c7_closure_arity_message (ev : EvalFn) (st : State) (c : Closure)
    (args : List Value) (h : args.length ≠ c.params.length) :
    applyClosure ev st c args = .error (.msg (
      (if c.name = "" then "anonymous function" else "function \"" ++ c.name ++ "\"") ++
      (if c.params.length = 0 then " takes no arguments"
       else if c.params.length = 1 then " takes one argument"
       else " takes " ++ toString c.params.length ++ " arguments"))) := by
  have hb : (args.length != c.params.length) = true := by
    simp [bne_iff_ne, h]
  unfold applyClosure
  rw [if_pos hb]
  unfold arityMsg
  generalize c.params.length = k
  rcases k with _ | _ | n <;>
    simp [beq_iff_eq, String.append_assoc]

/-- Witness for C7: the anonymous one-parameter closure `(func (a) a)`
applied to zero arguments reports "anonymous function takes one argument". -/
theorem c7_closure_arity_message_witness :
    applyClosure (evalNode 10) initState ⟨"", ["a"], [Node.sym "a"], 0⟩ [] =
      .error (.msg "anonymous function takes one argument") := by
  have hth := c7_closure_arity_message (evalNode 10) initState
    ⟨"", ["a"], [Node.sym "a"], 0⟩ [] (by decide)
  simpa using hth

/-- On a list of rational values `sumRats` folds their sum left-to-right
onto the accumulator. -/
theorem sumRats_ok (args : List Value) :
    ∀ (qs : List ℚ) (acc : ℚ), ratList args = some qs →
      sumRats args acc = .ok (qs.foldl (· + ·) acc) := by
  induction args with
  | nil =>
    intro qs acc h
    simp [ratList] at h
    subst h; rfl
  | cons a rest ih =>
    intro qs acc h
    cases a <;> simp [ratList] at h
    obtain ⟨qs2, h2, hq⟩ := h
    subst hq
    simpa [sumRats] using ih qs2 _ h2

/-- On a list of rational values `prodRats` folds their product
left-to-right onto the accumulator. -/
theorem prodRats_ok (args : List Value) :
    ∀ (qs : List ℚ) (acc : ℚ), ratList args = some qs →
      prodRats args acc = .ok (qs.foldl (· * ·) acc) := by
  induction args with
  | nil =>
    intro qs acc h
    simp [ratList] at h
    subst h; rfl
  | cons a rest ih =>
    intro qs acc h
    cases a <;> simp [ratList] at h
    obtain ⟨qs2, h2, hq⟩ := h
    subst hq
    simpa [prodRats] using ih qs2 _ h2

/-- A non-rational anywhere in the argument list makes `sumRats` fail. -/
theorem sumRats_err (args : List Value) :
    ∀ (acc : ℚ) (v : Value), v ∈ args → (∀ i q, v ≠ .rat i q) →
      ∃ m, sumRats args acc = .error (.msg m) := by
  induction args with
  | nil => intro acc v hv _; cases hv
  | cons a rest ih =>
    intro acc v hv hnr
    cases a with
    | rat i q =>
      cases hv with
      | head => exact absurd rfl (hnr i q)
      | tail _ hv2 => simpa [sumRats] using ih _ v hv2 hnr
    | bool b => exact ⟨_, rfl⟩
    | str s => exact ⟨_, rfl⟩
    | nil => exact ⟨_, rfl⟩
    | builtin b => exact ⟨_, rfl⟩
    | closure c => exact ⟨_, rfl⟩

/-- A non-rational anywhere in the argument list makes `prodRats` fail. -/
theorem prodRats_err (args : List Value) :
    ∀ (acc : ℚ) (v : Value), v ∈ args → (∀ i q, v ≠ .rat i q) →
      ∃ m, prodRats args acc = .error (.msg m) := by
  induction args with
  | nil => intro acc v hv _; cases hv
  | cons a rest ih =>
    intro acc v hv hnr
    cases a with
    | rat i q =>
      cases hv with
      | head => exact absurd rfl (hnr i q)
      | tail _ hv2 => simpa [prodRats] using ih _ v hv2 hnr
    | bool b => exact ⟨_, rfl⟩
    | str s => exact ⟨_, rfl⟩
    | nil => exact ⟨_, rfl⟩
    | builtin b => exact ⟨_, rfl⟩
    | closure c => exact ⟨_, rfl⟩

/-- C8: `+` on zero arguments returns the rational additive identity 0 and
`*` on zero arguments returns the multiplicative identity 1 (each as a
fresh allocation); on a list of rationals `+` returns their left-to-right
sum and `*` their left-to-right product; any non-rational argument makes
either call fail with a type error. -/
theorem c8_plus_mul_identities_and_folds :
    (∀ st : State, plusFn st [] = .ok ({ st with next := st.next + 1 }, .rat st.next 0)) ∧
    (∀ st : State, mulFn st [] = .ok ({ st with next := st.next + 1 }, .rat st.next 1)) ∧
    (∀ (st : State) (args : List Value) (qs : List ℚ), ratList args = some qs →
      plusFn st args =
        .ok ({ st with next := st.next + 1 }, .rat st.next (qs.foldl (· + ·) 0))) ∧
    (∀ (st : State) (args : List Value) (qs : List ℚ), ratList args = some qs →
      mulFn st args =
        .ok ({ st with next := st.next + 1 }, .rat st.next (qs.foldl (· * ·) 1))) ∧
    (∀ (st : State) (args : List Value) (v : Value), v ∈ args → (∀ i q, v ≠ .rat i q) →
      ∃ m, plusFn st args = .error (.msg m)) ∧
    (∀ (st : State) (args : List Value) (v : Value), v ∈ args → (∀ i q, v ≠ .rat i q) →
      ∃ m, mulFn st args = .error (.msg m)) := by
  refine ⟨fun st => rfl, fun st => rfl, ?_, ?_, ?_, ?_⟩
  · intro st args qs h
    simp [plusFn, sumRats_ok args qs 0 h, State.allocRat]
  · intro st args qs h
    simp [mulFn, prodRats_ok args qs 1 h, State.allocRat]
  · intro st args v hv hnr
    obtain ⟨m, hm⟩ := sumRats_err args 0 v hv hnr
    exact ⟨m, by simp [plusFn, hm]⟩
  · intro st args v hv hnr
    obtain ⟨m, hm⟩ := prodRats_err args 1 v hv hnr
    exact ⟨m, by simp [mulFn, hm]⟩

/-- Witness for C8: `(+ 2 3)` allocates a fresh rational 5, `(* 2 3)` a
fresh rational 6, and either built-in applied to the non-rational `nil`
fails. -/
theorem c8_plus_mul_identities_and_folds_witness :
    plusFn initState [Value.rat 0 2, Value.rat 1 3] =
      .ok ({ initState with next := 1001 }, .rat 1000 5) ∧
    mulFn initState [Value.rat 0 2, Value.rat 1 3] =
      .ok ({ initState with next := 1001 }, .rat 1000 6) ∧
    (∃ m, plusFn initState [Value.nil] = .error (.msg m)) ∧
    (∃ m, mulFn initState [Value.nil] = .error (.msg m)) := by
  refine ⟨?_, ?_, ?_, ?_⟩
  · have hx := c8_plus_mul_identities_and_folds.2.2.1 initState
      [Value.rat 0 2, Value.rat 1 3] [2, 3] rfl
    norm_num [initState, List.foldl] at hx ⊢
    exact hx
  · have hx := c8_plus_mul_identities_and_folds.2.2.2.1 initState
      [Value.rat 0 2, Value.rat 1 3] [2, 3] rfl
    norm_num [initState, List.foldl] at hx ⊢
    exact hx
  · exact c8_plus_mul_identities_and_folds.2.2.2.2.1 initState
      [Value.nil] Value.nil (List.Mem.head _) (fun i q h => Value.noConfusion h)
  · exact c8_plus_mul_identities_and_folds.2.2.2.2.2 initState
      [Value.nil] Value.nil (List.Mem.head _) (fun i q h => Value.noConfusion h)

/-- Names bound in a frame. -/
def Frame.keys (fr : Frame) : List String := fr.bindings.map Prod.fst

/-- The duplicate check of `Create` tests membership among the frame's
bound names. -/
theorem frame_any_iff (fr : Frame) (n : String) :
    (fr.bindings.any fun b => b.1 == n) = true ↔ n ∈ fr.keys := by
  simp [Frame.keys, List.any_eq_true, beq_iff_eq, List.mem_map]

/-- The parameter-binding loop panics when some parameter name repeats or
is already bound in the target frame (lengths being equal). -/
theorem bindFrame_dup :
    ∀ (ps : List String) (args : List Value) (fr : Frame),
      ps.length = args.length →
      ((∃ n ∈ ps, n ∈ fr.keys) ∨ ¬ ps.Nodup) →
      ∃ m, bindFrame fr ps args = .error (.panicErr m) := by
  intro ps
  induction ps with
  | nil =>
    intro args fr hl hc
    rcases hc with ⟨n, hn, _⟩ | hd
    · cases hn
    · exact absurd List.nodup_nil hd
  | cons p ps2 ih =>
    intro args fr hl hc
    cases args with
    | nil => simp at hl
    | cons a rest =>
      by_cases hp : (fr.bindings.any fun b => b.1 == p) = true
      · exact ⟨"must not happen: " ++ ("twik: symbol already defined in scope: " ++ p),
          by simp [bindFrame, Frame.createB, hp, Error.text]⟩
      · have hstep : bindFrame fr (p :: ps2) (a :: rest) =
            bindFrame { fr with bindings := fr.bindings ++ [(p, a)] } ps2 rest := by
          simp [bindFrame, Frame.createB, hp]
        rw [hstep]
        refine ih rest _ (by simpa using hl) ?_
        have hkeys : ({ fr with bindings := fr.bindings ++ [(p, a)] } : Frame).keys
            = fr.keys ++ [p] := by simp [Frame.keys]
        have hpk : p ∉ fr.keys := fun hmem => hp ((frame_any_iff fr p).mpr hmem)
        rcases hc with ⟨n, hn, hk⟩ | hd
        · rcases List.mem_cons.mp hn with rfl | hn2
          · exact absurd hk hpk
          · exact Or.inl ⟨n, hn2, by simp [hkeys, hk]⟩
        · by_cases hmem : p ∈ ps2
          · exact Or.inl ⟨p, hmem, by simp [hkeys]⟩
          · refine Or.inr fun hnd => hd ?_
            exact List.nodup_cons.mpr ⟨hmem, hnd⟩

/-- C9: invoking a closure whose parameter list repeats a name, with the
matching argument count, does not return an error through the normal error
path: the parameter-binding loop's `Create` fails on the repeated name and
the code panics (`panic("must not happen: ...")`, globals.go line 271). -/
theorem c9_duplicate_params_panic (ev : EvalFn) (st : State) (c : Closure)
    (args : List Value) (hlen : args.length = c.params.length)
    (hdup : ¬ c.params.Nodup) :
    ∃ m, applyClosure ev st c args = .error (.panicErr m) := by
  have hb : (args.length != c.params.length) = false := by simp [hlen]
  obtain ⟨m, hm⟩ := bindFrame_dup c.params args
    ⟨[], some (st.cellGet c.cell)⟩ hlen.symm (Or.inr hdup)
  refine ⟨m, ?_⟩
  simp [applyClosure, hb, State.branch, State.cellSet, State.frame,
    bindParams, List.getElem?_concat_length, hm]

/-- Witness for C9: the closure `(func (a a) a)` applied to two arguments
panics instead of returning an error. -/
theorem c9_duplicate_params_panic_witness :
    ∃ m, applyClosure (evalNode 10) ⟨[rootFrame], [0], 1000⟩
      ⟨"", ["a", "a"], [Node.sym "a"], 0⟩ [Value.nil, Value.nil] =
      .error (.panicErr m) :=
  c9_duplicate_params_panic (evalNode 10) ⟨[rootFrame], [0], 1000⟩
    ⟨"", ["a", "a"], [Node.sym "a"], 0⟩ [Value.nil, Value.nil] rfl (by simp)

/-- C10: every successful evaluation of a `var` or `set` form yields the
value nil, whatever value was bound or assigned (globals.go lines 199 and
214 return `nil` alongside the nil error). -/
theorem c10_var_set_value_nil :
    (∀ (ev : EvalFn) (st : State) (sc : Nat) (args : List Node) (st1 : State) (v : Value),
      varFn ev st sc args = .ok (st1, v) → v = .nil) ∧
    (∀ (ev : EvalFn) (st : State) (sc : Nat) (args : List Node) (st1 : State) (v : Value),
      setFn ev st sc args = .ok (st1, v) → v = .nil) := by
  constructor
  · intro ev st sc args st1 v h
    rcases args with _ | ⟨a, _ | ⟨b, _ | ⟨c3, rest⟩⟩⟩
    · exact absurd h (by simp [varFn])
    · cases a with
      | sym n =>
        simp only [varFn] at h
        split at h
        · simp_all
        · simp_all
      | list l => exact absurd h (by simp [varFn])
      | lit l => exact absurd h (by simp [varFn])
    · cases a with
      | sym n =>
        simp only [varFn, Bind.bind, Except.bind] at h
        split at h
        · exact absurd h (by simp)
        · split at h
          · simp_all
          · simp_all
      | list l => exact absurd h (by simp [varFn])
      | lit l => exact absurd h (by simp [varFn])
    · exact absurd h (by simp [varFn])
  · intro ev st sc args st1 v h
    rcases args with _ | ⟨a, _ | ⟨b, _ | ⟨c3, rest⟩⟩⟩
    · exact absurd h (by simp [setFn])
    · exact absurd h (by simp [setFn])
    · cases a with
      | sym n =>
        simp only [setFn, Bind.bind, Except.bind] at h
        split at h
        · exact absurd h (by simp)
        · split at h
          · simp_all
          · simp_all
      | list l => exact absurd h (by simp [setFn])
      | lit l => exact absurd h (by simp [setFn])
    · exact absurd h (by simp [setFn])

/-- Root frame extended with a binding of `x` to nil, the state after
`(var x)`. -/
def c10VarState : State :=
  ⟨[⟨rootFrame.bindings ++ [("x", Value.nil)], none⟩], [], 1000⟩

/-- State after `(set x "v")` from `c10VarState`. -/
def c10SetState : State :=
  ⟨[⟨rootFrame.bindings ++ [("x", Value.str "v")], none⟩], [], 1000⟩

/-- Witness for C10: `(var x)` succeeds with value nil, and `(set x "v")`
in the resulting state succeeds with value nil as well. -/
theorem c10_var_set_value_nil_witness :
    varFn (evalNode 10) initState 0 [Node.sym "x"] = .ok (c10VarState, Value.nil) ∧
    setFn (evalNode 10) c10VarState 0 [Node.sym "x", Node.lit (Lit.str "v")] =
      .ok (c10SetState, Value.nil) ∧
    (Value.nil = Value.nil ∧ Value.nil = Value.nil) :=
  ⟨by rfl, by rfl,
   c10_var_set_value_nil.1 (evalNode 10) initState 0 [Node.sym "x"]
     c10VarState Value.nil (by rfl),
   c10_var_set_value_nil.2 (evalNode 10) c10VarState 0
     [Node.sym "x", Node.lit (Lit.str "v")] c10SetState Value.nil (by rfl)⟩

end Twik
